import Mathlib

/-!
Verification development for the stock-market-app backend: a shallow
embedding of the AI daily-picks pipeline (src/backend/scheduler.js), the
persistence layer (src/backend/database.js) and the rate-limited data
gateway (src/backend/server.js, src/backend/scheduler.js).

Modelling conventions: JavaScript numbers are embedded as ℚ (all the
arithmetic the claims touch is exact decimal arithmetic, far from any
float-rounding boundary); nullable numbers are Option ℚ, with the
source's null-coalescing guards (x || 0) embedded as Option.getD 0;
Math.round is JavaScript rounding (half toward positive infinity);
fallible provider calls are driven by an explicit list of per-attempt
provider outcomes; wall-clock instants (Date.now(), NOW()) are explicit
ℤ millisecond parameters.
-/

/-- JavaScript Math.round: rounds half toward positive infinity. -/
def jsRound (q : ℚ) : ℤ := ⌊q + 1/2⌋

/-- scheduler.js calculateAiScore (lines 318-343): five weighted,
independently normalized components, rounded and clamped to [0,100].
The source guards changePercent, epsGrowth, revenueGrowth and
week13Return with (x || 0), embedded as Option.getD 0. -/
def calculateAiScore (buyRatio : ℚ) (changePercent : Option ℚ) (sentimentScore : ℚ)
    (epsGrowth revenueGrowth week13Return : Option ℚ) : ℤ :=
  let analystComponent := buyRatio
  let avgGrowth := (epsGrowth.getD 0 + revenueGrowth.getD 0) / 2
  let clampedGrowth := max (-50) (min 100 avgGrowth)
  let growthComponent := ((clampedGrowth + 50) / 150) * 100
  let clampedTrend := max (-30) (min 30 (week13Return.getD 0))
  let trendComponent := ((clampedTrend + 30) / 60) * 100
  let clampedChange := max (-5) (min 5 (changePercent.getD 0))
  let momentumComponent := ((clampedChange + 5) / 10) * 100
  let sentimentComponent := ((sentimentScore + 1) / 2) * 100
  let composite := jsRound (analystComponent * 0.30 + growthComponent * 0.20 +
    trendComponent * 0.20 + momentumComponent * 0.15 + sentimentComponent * 0.15)
  max 0 (min 100 composite)

/-- scheduler.js getConsensus (lines 351-357): first matching threshold wins. -/
def getConsensus (buyRatio : ℤ) : String :=
  if buyRatio > 70 then ("Strong Buy")
  else if buyRatio > 50 then ("Buy")
  else if buyRatio ≤ 15 then ("Strong Sell")
  else if buyRatio ≤ 30 then ("Sell")
  else ("Hold")

/-- A candidate/pick record: exactly the fields built by the pipeline in
scheduler.js and inserted as columns by database.js bulkUpsertAiPicks. -/
structure Pick where
  symbol : String
  name : String
  sector : String
  logo : String
  price : ℚ
  change : ℚ
  change_percent : ℚ
  strong_buy : ℕ
  buy : ℕ
  hold : ℕ
  sell : ℕ
  strong_sell : ℕ
  buy_ratio : ℤ
  consensus : String
  total_analysts : ℕ
  ai_score : ℤ
  sentiment_score : ℚ
  sentiment_label : String
  momentum_score : ℚ
  reason_text : String
  category : Option String
  news_positive_count : ℕ
  news_negative_count : ℕ
  news_total_count : ℕ
  avg_volume : ℚ
  market_cap : ℚ
  eps_growth : Option ℚ
  revenue_growth : Option ℚ
  pe_ratio : Option ℚ
  week_13_return : Option ℚ
  above_50_ma : Bool
  pick_date : String
deriving DecidableEq, Repr

/-- scheduler.js assignCategory (lines 359-365): rules tried in order,
first match wins, otherwise null. -/
def assignCategory (pick : Pick) : Option String :=
  if pick.price < 50 ∧ pick.ai_score > 60 then some ("Low-Cost Opportunities")
  else if 50 ≤ pick.price ∧ pick.price ≤ 300 ∧ pick.change_percent > 0 then some ("Mid-Cap Momentum")
  else if 300 < pick.price ∧ pick.buy_ratio ≥ 60 then some ("High-Value Premium")
  else if pick.change_percent > 2 ∧ pick.buy_ratio ≥ 50 then some ("Breakout Candidates")
  else none

/-- The most recent analyst-recommendation record for a symbol, as read
from recs[0] in scheduler.js (the || 0 null guards already applied). -/
structure RecommendationRecord where
  strongBuy : ℕ
  buy : ℕ
  hold : ℕ
  sell : ℕ
  strongSell : ℕ
deriving DecidableEq, Repr

/-- The total analyst count computed in scheduler.js refreshAiDailyPicks
(line 546). -/
def totalAnalystsOf (r : RecommendationRecord) : ℕ :=
  r.strongBuy + r.buy + r.hold + r.sell + r.strongSell

/-- The consensus fields pushed onto stocksWithRecs in scheduler.js
refreshAiDailyPicks (lines 549-559). -/
structure ConsensusEntry where
  strong_buy : ℕ
  buy : ℕ
  hold : ℕ
  sell : ℕ
  strong_sell : ℕ
  buy_ratio : ℤ
  total_analysts : ℕ
  consensus : String
deriving DecidableEq, Repr

/-- scheduler.js refreshAiDailyPicks lines 544-559: a symbol is kept only
when total > 0; buyRatio = Math.round((strongBuy+buy)/total*100). -/
def processRecommendation (r : RecommendationRecord) : Option ConsensusEntry :=
  let total := totalAnalystsOf r
  if 0 < total then
    let buyRatio := jsRound ((((r.strongBuy : ℚ) + r.buy) / total) * 100)
    some { strong_buy := r.strongBuy, buy := r.buy, hold := r.hold,
           sell := r.sell, strong_sell := r.strongSell,
           buy_ratio := buyRatio, total_analysts := total,
           consensus := getConsensus buyRatio }
  else none

/-- Liquidity gate, scheduler.js line 625:
avg daily volume > 0.1 (millions) or market cap > 300 (millions). -/
def liquidityFilter (s : Pick) : Bool :=
  decide (s.avg_volume > 0.1) || decide (s.market_cap > 300)

/-- Growth gate, scheduler.js lines 629-632: positive EPS growth or
positive revenue growth, null failing. -/
def growthFilter (s : Pick) : Bool :=
  (match s.eps_growth with
   | some g => decide (g > 0)
   | none => false) ||
  (match s.revenue_growth with
   | some g => decide (g > 0)
   | none => false)

/-- Trend gate, scheduler.js line 636: above_50_ma === true. -/
def trendFilter (s : Pick) : Bool := s.above_50_ma

/-- Sentiment gate, scheduler.js line 682: sentiment_score >= -0.3. -/
def sentimentFilter (s : Pick) : Bool := decide (s.sentiment_score ≥ -0.3)

/-- The four progressive filter gates of refreshAiDailyPicks, in the
order the source applies them. -/
def pipelineGates : List (Pick → Bool) :=
  [liquidityFilter, growthFilter, trendFilter, sentimentFilter]

/-- Apply a sequence of filter gates in order, each one narrowing the
surviving set of the previous one (scheduler.js lines 621-637 and 682). -/
def applyGates (gs : List (Pick → Bool)) (u : List Pick) : List Pick :=
  gs.foldl (fun acc g => acc.filter g) u

/-- The (symbol, pick_date) conflict key of the ai_daily_picks table
(database.js line 694 and bulkUpsertAiPicks line 703). -/
def pickKey (p : Pick) : String × String := (p.symbol, p.pick_date)

/-- A persisted ai_daily_picks row: every data column is overwritten
from the incoming pick by the ON CONFLICT DO UPDATE clause, and
updated_at is set to NOW() (database.js lines 716-734). -/
structure Row where
  data : Pick
  updated_at : ℤ
deriving DecidableEq, Repr

/-- The relational store keyed by the unique index on (symbol, pick_date). -/
def DB : Type := String × String → Option Row

/-- The in-batch deduplication of bulkUpsertAiPicks (database.js lines
701-707): a Set of seen keys; a pick is kept only when its key has not
been seen yet, so the first occurrence of each key survives. -/
def dedupSeen (seen : List (String × String)) : List Pick → List Pick
  | [] => []
  | p :: ps =>
    if pickKey p ∈ seen then dedupSeen seen ps
    else p :: dedupSeen (pickKey p :: seen) ps

/-- The unique list produced by the seen-set filter in bulkUpsertAiPicks. -/
def dedupAiPicks (picks : List Pick) : List Pick := dedupSeen [] picks

/-- Fixed-size chunking: slice(i, i + batchSize) with i stepping by
batchSize (database.js lines 710-712). -/
def chunksOf {α : Type} (n : ℕ) : List α → List (List α)
  | [] => []
  | p :: ps => (p :: ps.take (n - 1)) :: chunksOf n (ps.drop (n - 1))
termination_by l => l.length
decreasing_by simp [List.length_drop]; omega

/-- One row's upsert: INSERT ... ON CONFLICT (symbol, pick_date) DO
UPDATE overwriting every data column and bumping updated_at to NOW(). -/
def insertPick (d : DB) (now : ℤ) (p : Pick) : DB :=
  fun k => if k = pickKey p then some { data := p, updated_at := now } else d k

/-- One chunk's multi-row upsert statement applied row by row (within a
chunk all keys are distinct after deduplication, so the order is
immaterial). -/
def applyChunk (now : ℤ) (d : DB) (chunk : List Pick) : DB :=
  chunk.foldl (fun d p => insertPick d now p) d

/-- database.js bulkUpsertAiPicks (lines 700-742): dedupe by
(symbol, pick_date) keeping first occurrences, then upsert in chunks of
batchSize = 50. The failure-free execution is modelled (a failed chunk
is logged and skipped in the source; no chunk fails here). -/
def bulkUpsertAiPicks (d : DB) (picks : List Pick) (now : ℤ) : DB :=
  (chunksOf 50 (dedupAiPicks picks)).foldl (applyChunk now) d

/-- The empty store. -/
def emptyDB : DB := fun _ => none

/-- A cache entry of the interactive gateway (server.js lines 52-67):
the payload (abstracted to ℕ) and the instant it was stored. -/
structure CacheEntry where
  data : ℕ
  time : ℤ
deriving DecidableEq, Repr

/-- server.js getCached (lines 57-63): return the entry's payload only
while its age is below the TTL. -/
def getCached (entry : Option CacheEntry) (now ttl : ℤ) : Option ℕ :=
  match entry with
  | some e => if now - e.time < ttl then some e.data else none
  | none => none

/-- What the provider does on one attempted call: a payload, an HTTP 429
throttling response, or any other error. -/
inductive ProviderOutcome
  | success (data : ℕ)
  | http429
  | failure
deriving DecidableEq, Repr

/-- Result of an interactive-gateway fetch: a payload, a propagated
exception, or nontermination of the retry recursion (never reached when
the outcome list ends in a non-429 outcome). -/
inductive FetchResult
  | ok (data : ℕ)
  | error
  | diverge
deriving DecidableEq, Repr

/-- server.js finnhubRequest (lines 100-131), per cache key: fresh cache
hit returns immediately; otherwise the call is issued (rate limiting is
modelled separately); HTTP 429 sleeps 10000 ms and re-enters from the
top consuming the next outcome; any other error returns the stale cache
entry when one exists, else the error propagates; success stores the
payload in the cache. Returns (result, cache after the fetch,
accumulated cooldown sleep in ms). -/
def finnhubRequest (entry : Option CacheEntry) (now ttl : ℤ) :
    List ProviderOutcome → FetchResult × Option CacheEntry × ℤ
  | [] =>
    match getCached entry now ttl with
    | some d => (FetchResult.ok d, entry, 0)
    | none => (FetchResult.diverge, entry, 0)
  | o :: rest =>
    match getCached entry now ttl with
    | some d => (FetchResult.ok d, entry, 0)
    | none =>
      match o with
      | ProviderOutcome.success d => (FetchResult.ok d, some { data := d, time := now }, 0)
      | ProviderOutcome.http429 =>
        let r := finnhubRequest entry (now + 10000) ttl rest
        (r.1, r.2.1, r.2.2 + 10000)
      | ProviderOutcome.failure =>
        match entry with
        | some e => (FetchResult.ok e.data, some e, 0)
        | none => (FetchResult.error, none, 0)

/-- Result of a batch-gateway fetch (scheduler.js batchFinnhubRequest):
a payload, the null sentinel returned on any non-429 error, or
nontermination of the retry recursion. There is no error constructor
because the catch block never rethrows. -/
inductive BatchResult
  | ok (data : ℕ)
  | nullData
  | diverge
deriving DecidableEq, Repr

/-- scheduler.js batchFinnhubRequest (lines 245-261): no cache; HTTP 429
sleeps 15000 ms and retries consuming the next outcome; any other error
returns null. Returns (result, accumulated cooldown sleep in ms). -/
def batchFinnhubRequest : List ProviderOutcome → BatchResult × ℤ
  | [] => (BatchResult.diverge, 0)
  | o :: rest =>
    match o with
    | ProviderOutcome.success d => (BatchResult.ok d, 0)
    | ProviderOutcome.http429 =>
      let r := batchFinnhubRequest rest
      (r.1, r.2 + 15000)
    | ProviderOutcome.failure => (BatchResult.nullData, 0)

/-- Eviction sweep shared by both limiters: shift timestamps off the
front while they are older than 60 seconds (scheduler.js lines 233-236,
server.js lines 77-80). -/
def evictOld (now : ℤ) (w : List ℤ) : List ℤ :=
  w.dropWhile (fun ts => decide (ts < now - 60000))

/-- One slot acquisition at instant now (scheduler.js waitForBatchSlot
lines 231-243, server.js canMakeRequest/waitForSlot lines 75-97): after
eviction, succeed and record the timestamp only while the window is
below the 55-per-minute ceiling; none means the caller blocks and must
retry at a later instant. -/
def acquireSlot (w : List ℤ) (now : ℤ) : Option (List ℤ) :=
  if (evictOld now w).length < 55 then some (evictOld now w ++ [now]) else none

/-- One gateway fetch as seen by the rate limiter: either an outbound
network call that acquired a slot at instant t, or a fetch answered from
a fresh cache entry at instant t (which returns before waitForSlot runs,
server.js lines 104-108). -/
inductive GEvent
  | net (t : ℤ)
  | cachedHit (t : ℤ)
deriving DecidableEq, Repr

/-- The instant of a gateway event. -/
def GEvent.time : GEvent → ℤ
  | net t => t
  | cachedHit t => t

/-- Whether the event is an outbound network call. -/
def GEvent.isNet : GEvent → Bool
  | net _ => true
  | cachedHit _ => false

/-- Replay a sequence of gateway events through the limiter window:
network calls acquire slots, cache hits never touch the window. none
means some network call found the window at capacity (in the source
that call would still be blocked, so the sequence is not realizable). -/
def replayFrom (w : List ℤ) : List GEvent → Option (List ℤ)
  | [] => some w
  | GEvent.cachedHit _ :: rest => replayFrom w rest
  | GEvent.net t :: rest =>
    match acquireSlot w t with
    | some w2 => replayFrom w2 rest
    | none => none

/-- Number of outbound network calls of a trace issued in the trailing
60-second interval ending at t. -/
def netCountInWindow (t : ℤ) (tr : List GEvent) : ℕ :=
  (tr.filter (fun e => e.isNet && decide (t - 60000 ≤ e.time) && decide (e.time ≤ t))).length

/-- Number of window timestamps at or after t - 60000 (the slots that a
call in the trailing interval ending at t can still see). -/
def lateCount (t : ℤ) (w : List ℤ) : ℕ :=
  (w.filter (fun x => decide (t - 60000 ≤ x))).length

/-- A concrete pick used to instantiate scenarios; its field values are
representative of a phase-3 enriched candidate. -/
def basePick : Pick :=
  { symbol := "AAPL", name := "Apple Inc", sector := "Technology", logo := "",
    price := 100, change := 1, change_percent := 3,
    strong_buy := 10, buy := 5, hold := 3, sell := 1, strong_sell := 1,
    buy_ratio := 80, consensus := "Strong Buy", total_analysts := 20,
    ai_score := 70, sentiment_score := 1/2, sentiment_label := "Bullish",
    momentum_score := 80, reason_text := "", category := none,
    news_positive_count := 3, news_negative_count := 1, news_total_count := 5,
    avg_volume := 1, market_cap := 1000,
    eps_growth := some 25, revenue_growth := some 20, pe_ratio := some 30,
    week_13_return := some 10, above_50_ma := true, pick_date := "2024-01-02" }

/-- First of two batch entries sharing the key ("AAPL", "2024-01-02"). -/
def dupFirstPick : Pick := { basePick with price := 1 }

/-- Second of two batch entries sharing the key ("AAPL", "2024-01-02"). -/
def dupSecondPick : Pick := { basePick with price := 2 }

/-- A concrete realizable gateway trace: two spaced network calls around
a cache hit. -/
def sampleTrace : List GEvent :=
  [GEvent.net 0, GEvent.cachedHit 30000, GEvent.net 60000]

/-- A concrete analyst-recommendation record: 10 strong buy, 5 buy,
3 hold, 1 sell, 1 strong sell (20 analysts, buy ratio 75). -/
def sampleRecommendation : RecommendationRecord :=
  { strongBuy := 10, buy := 5, hold := 3, sell := 1, strongSell := 1 }

lemma filter_self_idem {α : Type} (p : α → Bool) (l : List α) :
    (l.filter p).filter p = l.filter p := by
  rw [List.filter_filter]
  exact List.filter_congr (fun a _ => by cases h : p a <;> simp [h])

lemma chunksOf_flatten_aux {α : Type} (n : ℕ) :
    ∀ (k : ℕ) (l : List α), l.length ≤ k → (chunksOf n l).flatten = l := by
  intro k
  induction k with
  | zero =>
    intro l hl
    have hnil : l = [] := List.eq_nil_of_length_eq_zero (Nat.le_zero.mp hl)
    subst hnil
    simp [chunksOf]
  | succ k ih =>
    intro l hl
    cases l with
    | nil => simp [chunksOf]
    | cons p ps =>
      rw [chunksOf]
      simp only [List.flatten_cons, List.cons_append]
      rw [ih (ps.drop (n - 1)) ?_, List.take_append_drop]
      simp only [List.length_drop]
      simp only [List.length_cons] at hl
      omega

lemma chunksOf_flatten {α : Type} (n : ℕ) (l : List α) : (chunksOf n l).flatten = l :=
  chunksOf_flatten_aux n l.length l le_rfl

lemma dedupSeen_find? (k : String × String) :
    ∀ (l : List Pick) (seen : List (String × String)), k ∉ seen →
      (dedupSeen seen l).find? (fun p => decide (pickKey p = k)) =
        l.find? (fun p => decide (pickKey p = k)) := by
  intro l
  induction l with
  | nil => intro seen _; rfl
  | cons p ps ih =>
    intro seen hk
    by_cases hmem : pickKey p ∈ seen
    · have hne : ¬(pickKey p = k) := fun h => hk (h ▸ hmem)
      rw [dedupSeen, if_pos hmem, List.find?_cons_of_neg _ (by simpa using hne)]
      exact ih seen hk
    · rw [dedupSeen, if_neg hmem]
      by_cases hpk : pickKey p = k
      · rw [List.find?_cons_of_pos _ (by simpa using hpk),
          List.find?_cons_of_pos _ (by simpa using hpk)]
      · rw [List.find?_cons_of_neg _ (by simpa using hpk),
          List.find?_cons_of_neg _ (by simpa using hpk)]
        exact ih (pickKey p :: seen) (by
          intro hc
          rcases List.mem_cons.mp hc with h | h
          · exact hpk h.symm
          · exact hk h)

lemma dedupSeen_keys_pairwise :
    ∀ (l : List Pick) (seen : List (String × String)),
      List.Pairwise (fun a b => pickKey a ≠ pickKey b) (dedupSeen seen l) ∧
        ∀ p ∈ dedupSeen seen l, pickKey p ∉ seen := by
  intro l
  induction l with
  | nil => intro seen; exact ⟨List.Pairwise.nil, by intro p hp; cases hp⟩
  | cons p ps ih =>
    intro seen
    by_cases hmem : pickKey p ∈ seen
    · simpa only [dedupSeen, if_pos hmem] using ih seen
    · simp only [dedupSeen, if_neg hmem]
      obtain ⟨hpw, hnot⟩ := ih (pickKey p :: seen)
      refine ⟨List.Pairwise.cons ?_ hpw, ?_⟩
      · intro q hq
        have := hnot q hq
        intro hc
        exact this (hc ▸ List.mem_cons_self _ _)
      · intro q hq
        rcases List.mem_cons.mp hq with h | h
        · exact h ▸ hmem
        · exact fun hc => hnot q h (List.mem_cons_of_mem _ hc)

lemma foldl_insert_skip (now : ℤ) (k : String × String) :
    ∀ (l : List Pick) (d : DB), (∀ q ∈ l, pickKey q ≠ k) →
      l.foldl (fun d p => insertPick d now p) d k = d k := by
  intro l
  induction l with
  | nil => intro d _; rfl
  | cons p ps ih =>
    intro d hne
    simp only [List.foldl_cons]
    rw [ih _ (fun q hq => hne q (List.mem_cons_of_mem _ hq))]
    unfold insertPick
    rw [if_neg (fun hc => hne p (List.mem_cons_self _ _) hc.symm)]

lemma foldl_insert_find? (now : ℤ) (k : String × String) :
    ∀ (l : List Pick) (d : DB),
      List.Pairwise (fun a b => pickKey a ≠ pickKey b) l →
      l.foldl (fun d p => insertPick d now p) d k =
        match l.find? (fun p => decide (pickKey p = k)) with
        | some p => some { data := p, updated_at := now }
        | none => d k := by
  intro l
  induction l with
  | nil => intro d _; rfl
  | cons p ps ih =>
    intro d hpw
    obtain ⟨hhead, htail⟩ := List.pairwise_cons.mp hpw
    simp only [List.foldl_cons]
    by_cases hpk : pickKey p = k
    · rw [List.find?_cons_of_pos _ (by simpa using hpk)]
      rw [foldl_insert_skip now k ps _ (fun q hq hc => hhead q hq (hpk.trans hc.symm))]
      unfold insertPick
      rw [if_pos hpk.symm]
    · rw [List.find?_cons_of_neg _ (by simpa using hpk)]
      rw [ih _ htail]
      cases ps.find? (fun p => decide (pickKey p = k)) with
      | some q => rfl
      | none =>
        unfold insertPick
        rw [if_neg (fun hc => hpk hc.symm)]

lemma bulkUpsert_eval (d : DB) (picks : List Pick) (now : ℤ) (k : String × String) :
    bulkUpsertAiPicks d picks now k =
      match picks.find? (fun p => decide (pickKey p = k)) with
      | some p => some { data := p, updated_at := now }
      | none => d k := by
  unfold bulkUpsertAiPicks dedupAiPicks
  have hfold : (chunksOf 50 (dedupSeen [] picks)).foldl (applyChunk now) d =
      (dedupSeen [] picks).foldl (fun d p => insertPick d now p) d := by
    unfold applyChunk
    rw [← List.foldl_flatten, chunksOf_flatten]
  rw [hfold]
  rw [foldl_insert_find? now k _ d (dedupSeen_keys_pairwise picks []).1]
  rw [dedupSeen_find? k picks [] (by intro h; cases h)]

lemma applyGates_nil (u : List Pick) : applyGates [] u = u := rfl

lemma applyGates_cons (g : Pick → Bool) (gs : List (Pick → Bool)) (u : List Pick) :
    applyGates (g :: gs) u = applyGates gs (u.filter g) := rfl

lemma applyGates_append (a b : List (Pick → Bool)) (u : List Pick) :
    applyGates (a ++ b) u = applyGates b (applyGates a u) :=
  List.foldl_append _ _ _ _

lemma applyGates_sub (gs : List (Pick → Bool)) :
    ∀ u : List Pick, applyGates gs u ⊆ u := by
  induction gs with
  | nil => intro u; exact fun _ h => h
  | cons g gs ih =>
    intro u
    rw [applyGates_cons]
    exact fun x hx => List.filter_subset' _ (ih (u.filter g) hx)

lemma filter_applyGates (g : Pick → Bool) (gs : List (Pick → Bool)) :
    ∀ u : List Pick, (applyGates gs u).filter g = applyGates gs (u.filter g) := by
  induction gs with
  | nil => intro u; rfl
  | cons g2 gs ih =>
    intro u
    rw [applyGates_cons, applyGates_cons, ih, List.filter_comm]

lemma applyGates_idem (gs : List (Pick → Bool)) :
    ∀ u : List Pick, applyGates gs (applyGates gs u) = applyGates gs u := by
  induction gs with
  | nil => intro u; rfl
  | cons g gs ih =>
    intro u
    rw [applyGates_cons, applyGates_cons, filter_applyGates, filter_self_idem, ih]

lemma lateCount_le_length (t : ℤ) (w : List ℤ) : lateCount t w ≤ w.length :=
  List.length_filter_le _ w

lemma lateCount_evictOld (t s : ℤ) (hs : s ≤ t) (w : List ℤ) :
    lateCount t (evictOld s w) = lateCount t w := by
  unfold lateCount evictOld
  conv_rhs => rw [← List.takeWhile_append_dropWhile (fun ts => decide (ts < s - 60000)) w]
  rw [List.filter_append, List.length_append]
  have hnil : ((w.takeWhile fun ts => decide (ts < s - 60000)).filter
      fun x => decide (t - 60000 ≤ x)) = [] := by
    rw [List.filter_eq_nil_iff]
    intro a ha
    have hp := List.mem_takeWhile_imp ha
    simp only [decide_eq_true_eq] at hp ⊢
    omega
  rw [hnil]
  simp

lemma lateCount_append_single (t : ℤ) (w : List ℤ) (s : ℤ) :
    lateCount t (w ++ [s]) = lateCount t w + (if t - 60000 ≤ s then 1 else 0) := by
  unfold lateCount
  rw [List.filter_append, List.length_append]
  by_cases h : t - 60000 ≤ s
  · rw [if_pos h, List.filter_cons_of_pos (by simpa using h), List.filter_nil]
    rfl
  · rw [if_neg h, List.filter_cons_of_neg (by simpa using h), List.filter_nil]
    rfl

lemma netCount_zero_of_late (t : ℤ) (e : GEvent) (rest : List GEvent)
    (hhead : ∀ b ∈ rest, e.time ≤ b.time) (hgt : t < e.time) :
    netCountInWindow t (e :: rest) = 0 := by
  unfold netCountInWindow
  have hnil : ((e :: rest).filter
      fun x => x.isNet && decide (t - 60000 ≤ x.time) && decide (x.time ≤ t)) = [] := by
    rw [List.filter_eq_nil_iff]
    intro a ha
    simp only [Bool.and_eq_true, decide_eq_true_eq, not_and]
    rcases List.mem_cons.mp ha with h | h
    · subst h; intro _ hle; omega
    · have := hhead a h
      intro _ hle
      omega
  rw [hnil]
  rfl

lemma netCount_cons_cached (t s : ℤ) (rest : List GEvent) :
    netCountInWindow t (GEvent.cachedHit s :: rest) = netCountInWindow t rest := by
  unfold netCountInWindow
  rw [List.filter_cons_of_neg (by simp [GEvent.isNet])]

lemma netCount_cons_net (t s : ℤ) (rest : List GEvent) :
    netCountInWindow t (GEvent.net s :: rest) =
      (if t - 60000 ≤ s ∧ s ≤ t then 1 else 0) + netCountInWindow t rest := by
  unfold netCountInWindow
  by_cases h : t - 60000 ≤ s ∧ s ≤ t
  · rw [List.filter_cons_of_pos
      (by simp only [GEvent.isNet, GEvent.time, Bool.true_and, Bool.and_eq_true,
        decide_eq_true_eq]; exact h)]
    rw [if_pos h, List.length_cons]
    omega
  · rw [List.filter_cons_of_neg
      (by simp only [GEvent.isNet, GEvent.time, Bool.true_and, Bool.and_eq_true,
        decide_eq_true_eq]; exact h)]
    rw [if_neg h]
    omega

lemma replay_window_bound (t : ℤ) :
    ∀ (tr : List GEvent) (w : List ℤ),
      List.Pairwise (fun a b => GEvent.time a ≤ GEvent.time b) tr →
      (replayFrom w tr).isSome = true →
      netCountInWindow t tr = 0 ∨ netCountInWindow t tr + lateCount t w ≤ 55 := by
  intro tr
  induction tr with
  | nil => intro w _ _; exact Or.inl rfl
  | cons e rest ih =>
    intro w hpw hsome
    obtain ⟨hhead, htail⟩ := List.pairwise_cons.mp hpw
    cases e with
    | cachedHit s =>
      rw [netCount_cons_cached]
      simp only [replayFrom] at hsome
      exact ih w htail hsome
    | net s =>
      rcases hacq : acquireSlot w s with _ | w2
      · simp [replayFrom, hacq] at hsome
      · simp only [replayFrom, hacq] at hsome
        have hw2 : (evictOld s w).length < 55 ∧ w2 = evictOld s w ++ [s] := by
          unfold acquireSlot at hacq
          by_cases hlen : (evictOld s w).length < 55
          · rw [if_pos hlen] at hacq
            exact ⟨hlen, (Option.some.injEq _ _ ▸ hacq :
              evictOld s w ++ [s] = w2).symm⟩
          · rw [if_neg hlen] at hacq
            cases hacq
        by_cases hgt : t < s
        · exact Or.inl (netCount_zero_of_late t (GEvent.net s) rest hhead hgt)
        · have hs_le : s ≤ t := not_lt.mp hgt
          have hrec := ih w2 htail hsome
          rw [netCount_cons_net]
          by_cases hwin : t - 60000 ≤ s
          · rw [if_pos ⟨hwin, hs_le⟩]
            right
            have hlate_w : lateCount t (evictOld s w) = lateCount t w :=
              lateCount_evictOld t s hs_le w
            have hlate_w2 : lateCount t w2 = lateCount t (evictOld s w) + 1 := by
              rw [hw2.2, lateCount_append_single, if_pos hwin]
            have hbound : lateCount t (evictOld s w) ≤ (evictOld s w).length :=
              lateCount_le_length t (evictOld s w)
            have hcap := hw2.1
            rcases hrec with h0 | hle
            · rw [h0]; omega
            · omega
          · rw [if_neg (fun hc => hwin hc.1)]
            have hlate_w2 : lateCount t w2 = lateCount t w := by
              rw [hw2.2, lateCount_append_single, if_neg hwin,
                lateCount_evictOld t s hs_le]
              omega
            rcases hrec with h0 | hle
            · left; simpa using h0
            · right; omega

lemma replayFrom_filter_net : ∀ (tr : List GEvent) (w : List ℤ),
    replayFrom w tr = replayFrom w (tr.filter GEvent.isNet) := by
  intro tr
  induction tr with
  | nil => intro w; rfl
  | cons e rest ih =>
    intro w
    cases e with
    | cachedHit s =>
      rw [List.filter_cons_of_neg (by simp [GEvent.isNet])]
      simp only [replayFrom]
      exact ih w
    | net s =>
      rw [List.filter_cons_of_pos (by simp [GEvent.isNet])]
      simp only [replayFrom]
      cases hacq : acquireSlot w s with
      | some w2 => exact ih w2
      | none => rfl

/-- C2 (counterexample): for a batch holding two picks with the same
(symbol, pick_date) key, the occurrence that survives the in-batch
deduplication of bulkUpsertAiPicks — and determines the persisted row —
is the FIRST one in batch order, not the last: with dupFirstPick
(price 1) placed before dupSecondPick (price 2) under the shared key
("AAPL", "2024-01-02"), deduplication keeps dupFirstPick and the
persisted row carries price 1, refuting last-write-wins. -/
theorem c2_counterexample :
    dedupAiPicks [dupFirstPick, dupSecondPick] = [dupFirstPick] ∧
    bulkUpsertAiPicks emptyDB [dupFirstPick, dupSecondPick] 0 ("AAPL", "2024-01-02")
      = some { data := dupFirstPick, updated_at := 0 } ∧
    dupFirstPick.price ≠ dupSecondPick.price := by
  refine ⟨rfl, ?_, by norm_num [dupFirstPick, dupSecondPick, basePick]⟩
  rw [bulkUpsert_eval]
  rfl

/-- C2 (amended): bulkUpsertAiPicks deduplicates the batch by
(symbol, pick_date) before inserting, and the occurrence that survives —
and therefore determines the persisted row — is the first one in batch
order (first-write-wins): the first match in the deduplicated batch is
the first match in the original batch, and the persisted row under any
key is built from the first pick of the batch carrying that key (or the
prior row when the key is absent from the batch). -/
theorem c2_upsert_dedup_first_wins (d : DB) (picks : List Pick) (now : ℤ)
    (k : String × String) :
    (dedupAiPicks picks).find? (fun p => decide (pickKey p = k))
      = picks.find? (fun p => decide (pickKey p = k)) ∧
    bulkUpsertAiPicks d picks now k =
      match picks.find? (fun p => decide (pickKey p = k)) with
      | some p => some { data := p, updated_at := now }
      | none => d k :=
  ⟨dedupSeen_find? k picks [] (List.not_mem_nil k), bulkUpsert_eval d picks now k⟩

/-- C9: applying bulkUpsertAiPicks a second time with the same batch
leaves every persisted row in the state a single application produces:
the upsert overwrites all data columns from the batch, so the repeat
application (performed at instant now2) coincides with one application
at now2; in particular, with now2 = now the stores agree on the nose. -/
theorem c9_upsert_idempotent (d : DB) (picks : List Pick) (now now2 : ℤ) :
    bulkUpsertAiPicks (bulkUpsertAiPicks d picks now) picks now2
      = bulkUpsertAiPicks d picks now2 := by
  funext k
  simp only [bulkUpsert_eval]
  cases hf : picks.find? (fun p => decide (pickKey p = k)) with
  | some p => rfl
  | none => rfl

/-- C6: for every input universe, the survivor set of the full gate
sequence (liquidity, growth, trend, sentiment, in source order) is a
subset of the survivor set of any prefix of the gates, and re-applying
the gate sequence to its own output leaves the survivor set unchanged. -/
theorem c6_filters_monotone_idempotent (u : List Pick) (n : ℕ) :
    applyGates pipelineGates u ⊆ applyGates (pipelineGates.take n) u ∧
    applyGates pipelineGates (applyGates pipelineGates u) = applyGates pipelineGates u := by
  constructor
  · have hsplit : applyGates pipelineGates u
        = applyGates (pipelineGates.drop n) (applyGates (pipelineGates.take n) u) := by
      rw [← applyGates_append, List.take_append_drop]
    rw [hsplit]
    exact applyGates_sub _ _
  · exact applyGates_idem _ _

/-- C3 (counterexample): the claim fails on the batch gateway. At the
concrete input where the provider fails with a non-429 error on the
single attempt, batchFinnhubRequest returns the null sentinel — it keeps
no cache to fall back on and swallows the error instead of propagating
it — whereas the interactive finnhubRequest at the same failing attempt
returns the stale cached payload when one exists and propagates the
failure when none does. -/
theorem c3_counterexample :
    batchFinnhubRequest [ProviderOutcome.failure] = (BatchResult.nullData, 0) ∧
    finnhubRequest (some { data := 7, time := 0 }) 3600000 3600000 [ProviderOutcome.failure]
      = (FetchResult.ok 7, some { data := 7, time := 0 }, 0) ∧
    finnhubRequest none 0 3600000 [ProviderOutcome.failure]
      = (FetchResult.error, none, 0) :=
  ⟨rfl, rfl, rfl⟩

/-- C3 (amended): on a provider failure other than HTTP 429, the
interactive gateway returns the last cached payload under the key when
one exists (even expired) and otherwise propagates the failure; the
batch gateway, which maintains no cache, returns the null sentinel to
its caller instead of propagating. -/
theorem c3_stale_fallback (entry : Option CacheEntry) (now ttl : ℤ)
    (rest : List ProviderOutcome) (hstale : getCached entry now ttl = none) :
    finnhubRequest entry now ttl (ProviderOutcome.failure :: rest)
      = (match entry with
         | some e => (FetchResult.ok e.data, some e, 0)
         | none => (FetchResult.error, none, 0)) ∧
    batchFinnhubRequest (ProviderOutcome.failure :: rest)
      = (BatchResult.nullData, 0) := by
  constructor
  · cases entry with
    | some e => simp only [finnhubRequest, hstale]
    | none => simp only [finnhubRequest, hstale]
  · rfl

/-- C3 (witness): a stale interactive cache entry is served on failure
and the batch gateway returns null on the same failing attempt. -/
theorem c3_stale_fallback_witness :
    finnhubRequest (some { data := 7, time := 0 }) 3600000 3600000 [ProviderOutcome.failure]
      = (FetchResult.ok 7, some { data := 7, time := 0 }, 0) ∧
    batchFinnhubRequest [ProviderOutcome.failure] = (BatchResult.nullData, 0) :=
  c3_stale_fallback (some { data := 7, time := 0 }) 3600000 3600000 [] rfl

/-- C8: when the provider answers HTTP 429 on the first attempt and
succeeds on the retry, each gateway sleeps its fixed cooldown (10000 ms
interactive, 15000 ms batch), retries, and returns the successful
payload as the caller's single observable result; the interactive
gateway also caches the payload at the retry instant. -/
theorem c8_throttle_retry (entry : Option CacheEntry) (now ttl : ℤ) (d : ℕ)
    (rest : List ProviderOutcome) (hstale : getCached entry now ttl = none) :
    finnhubRequest entry now ttl
        (ProviderOutcome.http429 :: ProviderOutcome.success d :: rest)
      = (FetchResult.ok d, some { data := d, time := now + 10000 }, 10000) ∧
    batchFinnhubRequest (ProviderOutcome.http429 :: ProviderOutcome.success d :: rest)
      = (BatchResult.ok d, 15000) := by
  have hstale2 : getCached entry (now + 10000) ttl = none := by
    cases entry with
    | none => rfl
    | some e =>
      simp only [getCached] at hstale ⊢
      have h : ¬(now - e.time < ttl) := by
        intro h
        rw [if_pos h] at hstale
        cases hstale
      rw [if_neg (by omega)]
  constructor
  · simp only [finnhubRequest, hstale, hstale2]
    norm_num
  · simp only [batchFinnhubRequest]
    norm_num

/-- C8 (witness): with an empty cache, a 429-then-success outcome pair
yields the successful payload after one 10-second (interactive) and one
15-second (batch) cooldown. -/
theorem c8_throttle_retry_witness :
    finnhubRequest none 0 60000 [ProviderOutcome.http429, ProviderOutcome.success 7]
      = (FetchResult.ok 7, some { data := 7, time := 10000 }, 10000) ∧
    batchFinnhubRequest [ProviderOutcome.http429, ProviderOutcome.success 7]
      = (BatchResult.ok 7, 15000) :=
  c8_throttle_retry none 0 60000 7 [] rfl

/-- C4: for every realizable gateway trace (event instants nondecreasing
and every network call able to acquire a limiter slot), every trailing
60-second interval holds at most 55 outbound network calls — slot
acquisition evicts timestamps older than 60 seconds and refuses while
the window is at capacity — and a fetch answered from a fresh cache
entry records no timestamp and consumes no slot: replaying the limiter
ignores cache-hit events entirely. -/
theorem c4_rate_window_bound (tr : List GEvent) (t : ℤ)
    (hmono : List.Pairwise (fun a b => GEvent.time a ≤ GEvent.time b) tr)
    (hreal : (replayFrom [] tr).isSome = true) :
    netCountInWindow t tr ≤ 55 ∧
      ∀ w : List ℤ, replayFrom w tr = replayFrom w (tr.filter GEvent.isNet) := by
  constructor
  · rcases replay_window_bound t tr [] hmono hreal with h0 | hle
    · omega
    · have hz : lateCount t ([] : List ℤ) = 0 := rfl
      omega
  · intro w
    exact replayFrom_filter_net tr w

/-- C4 (witness): a concrete trace of two spaced network calls around a
cache hit is realizable and holds at most 55 calls in the window ending
at instant 60000. -/
theorem c4_rate_window_bound_witness : netCountInWindow 60000 sampleTrace ≤ 55 :=
  (c4_rate_window_bound sampleTrace 60000 (by decide) (by decide)).1

/-- C5: the composite scoring function is deterministic — equal input
tuples yield equal scores — and its result always lies in [0, 100]. -/
theorem c5_score_deterministic_bounded (buyRatio : ℚ) (changePercent : Option ℚ)
    (sentimentScore : ℚ) (epsGrowth revenueGrowth week13Return : Option ℚ) :
    calculateAiScore buyRatio changePercent sentimentScore epsGrowth revenueGrowth week13Return
      = calculateAiScore buyRatio changePercent sentimentScore epsGrowth revenueGrowth week13Return
    ∧ 0 ≤ calculateAiScore buyRatio changePercent sentimentScore epsGrowth revenueGrowth week13Return
    ∧ calculateAiScore buyRatio changePercent sentimentScore epsGrowth revenueGrowth week13Return ≤ 100 := by
  refine ⟨rfl, ?_, ?_⟩
  · exact le_max_left 0 _
  · exact max_le (by norm_num) (min_le_left 100 _)

/-- C1 (counterexample): at the scenario candidate (buyRatio 80,
changePercent 3, sentimentScore 0.5, epsGrowth 25, revenueGrowth 20,
week13Return 10) the composite score is exactly 70, which is not
strictly greater than 75; and for the concrete price 100 (below 300) the
categorization assigns "Mid-Cap Momentum", not "Breakout Candidates"
(the Mid-Cap rule matches first because changePercent 3 > 0). -/
theorem c1_counterexample :
    calculateAiScore 80 (some 3) (1/2) (some 25) (some 20) (some 10) = 70 ∧
    ¬(calculateAiScore 80 (some 3) (1/2) (some 25) (some 20) (some 10) > 75) ∧
    assignCategory basePick = some ("Mid-Cap Momentum") ∧
    some ("Mid-Cap Momentum") ≠ some ("Breakout Candidates") := by
  have hscore : calculateAiScore 80 (some 3) (1/2) (some 25) (some 20) (some 10) = 70 := by
    simp only [calculateAiScore, jsRound, Option.getD_some]
    norm_num [max_def, min_def]
  refine ⟨hscore, by rw [hscore]; norm_num, ?_, by simp⟩
  unfold assignCategory
  rw [if_neg (fun hc => absurd hc.1 (by decide)),
    if_pos ⟨by decide, by decide, by decide⟩]

/-- C1 (amended): at the scenario candidate the composite score is 70 —
in the high range above 60 but not above 75 — and for every price below
300 the categorization assigns "Low-Cost Opportunities" (price < 50,
since the score 70 exceeds 60) or "Mid-Cap Momentum" (price in
[50, 300], since changePercent 3 > 0), and never "Breakout
Candidates". -/
theorem c1_scenario_amended (price : ℚ) (hprice : price < 300) :
    calculateAiScore 80 (some 3) (1/2) (some 25) (some 20) (some 10) = 70 ∧
    60 < calculateAiScore 80 (some 3) (1/2) (some 25) (some 20) (some 10) ∧
    assignCategory { basePick with price := price }
      = some (if price < 50 then ("Low-Cost Opportunities") else ("Mid-Cap Momentum")) ∧
    assignCategory { basePick with price := price } ≠ some ("Breakout Candidates") := by
  have hscore : calculateAiScore 80 (some 3) (1/2) (some 25) (some 20) (some 10) = 70 := by
    simp only [calculateAiScore, jsRound, Option.getD_some]
    norm_num [max_def, min_def]
  refine ⟨hscore, by rw [hscore]; norm_num, ?_, ?_⟩
  · unfold assignCategory
    by_cases hp : price < 50
    · rw [if_pos ⟨hp, show (70 : ℤ) > 60 by decide⟩, if_pos hp]
    · rw [if_neg (fun hc => hp hc.1),
        if_pos ⟨not_lt.mp hp, le_of_lt hprice, show (3 : ℚ) > 0 by decide⟩, if_neg hp]
  · unfold assignCategory
    by_cases hp : price < 50
    · rw [if_pos ⟨hp, show (70 : ℤ) > 60 by decide⟩]
      simp
    · rw [if_neg (fun hc => hp hc.1),
        if_pos ⟨not_lt.mp hp, le_of_lt hprice, show (3 : ℚ) > 0 by decide⟩]
      simp

/-- C1 (witness): the amended scenario at the concrete price 100. -/
theorem c1_scenario_amended_witness :
    calculateAiScore 80 (some 3) (1/2) (some 25) (some 20) (some 10) = 70 ∧
    60 < calculateAiScore 80 (some 3) (1/2) (some 25) (some 20) (some 10) ∧
    assignCategory { basePick with price := 100 }
      = some (if (100 : ℚ) < 50 then ("Low-Cost Opportunities") else ("Mid-Cap Momentum")) ∧
    assignCategory { basePick with price := 100 } ≠ some ("Breakout Candidates") :=
  c1_scenario_amended 100 (by decide)

/-- C7: consensus processing keeps a symbol exactly when the analyst
total strongBuy+buy+hold+sell+strongSell is nonzero; when kept, the
entry carries that total, buyRatio = round((strongBuy+buy)/total*100)
and the label getConsensus buyRatio; and the label thresholds partition
exactly as: >70 Strong Buy, (50,70] Buy, <=15 Strong Sell, (15,30] Sell,
(30,50] Hold. -/
theorem c7_consensus_processing (r : RecommendationRecord) :
    (processRecommendation r = none ↔ totalAnalystsOf r = 0) ∧
    (0 < totalAnalystsOf r →
      processRecommendation r = some
        { strong_buy := r.strongBuy, buy := r.buy, hold := r.hold,
          sell := r.sell, strong_sell := r.strongSell,
          buy_ratio := jsRound ((((r.strongBuy : ℚ) + r.buy) / (totalAnalystsOf r : ℚ)) * 100),
          total_analysts := totalAnalystsOf r,
          consensus := getConsensus
            (jsRound ((((r.strongBuy : ℚ) + r.buy) / (totalAnalystsOf r : ℚ)) * 100)) }) ∧
    (∀ b : ℤ,
      (getConsensus b = "Strong Buy" ↔ 70 < b) ∧
      (getConsensus b = "Buy" ↔ 50 < b ∧ b ≤ 70) ∧
      (getConsensus b = "Strong Sell" ↔ b ≤ 15) ∧
      (getConsensus b = "Sell" ↔ 15 < b ∧ b ≤ 30) ∧
      (getConsensus b = "Hold" ↔ 30 < b ∧ b ≤ 50)) := by
  refine ⟨?_, ?_, ?_⟩
  · by_cases h : 0 < totalAnalystsOf r
    · simp only [processRecommendation, if_pos h]
      exact ⟨fun hc => absurd hc (by simp), fun hz => absurd hz (by omega)⟩
    · simp only [processRecommendation, if_neg h]
      exact ⟨fun _ => by omega, fun _ => trivial⟩
  · intro h
    simp only [processRecommendation, if_pos h]
  · intro b
    unfold getConsensus
    split_ifs with h1 h2 h3 h4 <;> refine ⟨?_, ?_, ?_, ?_, ?_⟩ <;> simp <;> omega

/-- C7 (witness): the sample record with 20 analysts is kept and its
entry fields are computed by the stated formulas. -/
theorem c7_consensus_processing_witness :
    processRecommendation sampleRecommendation = some
      { strong_buy := sampleRecommendation.strongBuy,
        buy := sampleRecommendation.buy, hold := sampleRecommendation.hold,
        sell := sampleRecommendation.sell,
        strong_sell := sampleRecommendation.strongSell,
        buy_ratio := jsRound ((((sampleRecommendation.strongBuy : ℚ)
          + sampleRecommendation.buy) / (totalAnalystsOf sampleRecommendation : ℚ)) * 100),
        total_analysts := totalAnalystsOf sampleRecommendation,
        consensus := getConsensus
          (jsRound ((((sampleRecommendation.strongBuy : ℚ)
            + sampleRecommendation.buy) / (totalAnalystsOf sampleRecommendation : ℚ)) * 100)) } :=
  (c7_consensus_processing sampleRecommendation).2.1 (by decide)

/-- C10: no pick with price in [50, 300] is ever assigned "Breakout
Candidates", and that category is assigned exactly when changePercent
exceeds 2, buyRatio is at least 50, and either price < 50 with
aiScore <= 60 or price > 300 with buyRatio < 60 (the earlier rules all
fail precisely then). -/
theorem c10_breakout_reachability (p : Pick) :
    (50 ≤ p.price ∧ p.price ≤ 300 → assignCategory p ≠ some ("Breakout Candidates")) ∧
    (assignCategory p = some ("Breakout Candidates") ↔
      2 < p.change_percent ∧ 50 ≤ p.buy_ratio ∧
        ((p.price < 50 ∧ p.ai_score ≤ 60) ∨ (300 < p.price ∧ p.buy_ratio < 60))) := by
  unfold assignCategory
  split_ifs with h1 h2 h3 h4
  · obtain ⟨h1a, h1b⟩ := h1
    refine ⟨fun _ => by simp, ⟨fun hstr => absurd hstr (by simp), ?_⟩⟩
    rintro ⟨hcp, hbr, ⟨hp, hs⟩ | ⟨hp, hbr2⟩⟩
    · omega
    · linarith
  · obtain ⟨h2a, h2b, h2c⟩ := h2
    refine ⟨fun _ => by simp, ⟨fun hstr => absurd hstr (by simp), ?_⟩⟩
    rintro ⟨hcp, hbr, ⟨hp, hs⟩ | ⟨hp, hbr2⟩⟩
    · linarith
    · linarith
  · obtain ⟨h3a, h3b⟩ := h3
    refine ⟨fun _ => by simp, ⟨fun hstr => absurd hstr (by simp), ?_⟩⟩
    rintro ⟨hcp, hbr, ⟨hp, hs⟩ | ⟨hp, hbr2⟩⟩
    · linarith
    · omega
  · obtain ⟨h4a, h4b⟩ := h4
    constructor
    · intro hpr
      exact absurd ⟨hpr.1, hpr.2, by linarith⟩ h2
    · constructor
      · intro _
        refine ⟨h4a, h4b, ?_⟩
        by_cases hp : p.price < 50
        · left
          refine ⟨hp, ?_⟩
          by_contra hs
          exact h1 ⟨hp, by omega⟩
        · right
          have hp300 : 300 < p.price := by
            by_contra hle
            push_neg at hle
            exact h2 ⟨not_lt.mp hp, hle, by linarith⟩
          refine ⟨hp300, ?_⟩
          by_contra hbr2
          exact h3 ⟨hp300, by omega⟩
      · intro _
        rfl
  · constructor
    · intro _
      simp
    · constructor
      · intro hc
        simp at hc
      · rintro ⟨hcp, hbr, _⟩
        exact absurd ⟨hcp, hbr⟩ h4

/-- C10 (witness): the concrete mid-range pick at price 100 is not a
Breakout Candidate. -/
theorem c10_breakout_reachability_witness :
    assignCategory basePick ≠ some ("Breakout Candidates") :=
  (c10_breakout_reachability basePick).1 (by decide)
